import Mathlib

/-!
Verification of the SQB query-assembly core (`src/sqg/sqg.py`).

Modelling conventions for the shallow embedding:
* a Python string is a list of Unicode scalar values (`Str := List Char`);
* a Python dict is an insertion-ordered association list (`List (Str × _)`)
  with unique keys — iteration order is the list order, lookup is
  first-match, so it coincides with dict lookup when keys are unique;
* a Python set of strings is a list of strings considered up to
  permutation; where distinctness of members matters a `Nodup`
  hypothesis expresses the set property;
* a Python function that can raise is a function into `Except SQGError _`;
  the raised exception class is modelled by the matching constructor of
  `SQGError`.
-/

namespace SQG

/-- A Python string: a finite sequence of Unicode scalar values. -/
abbrev Str := List Char

/-- Injection of a Lean string literal into the model. -/
def str (s : String) : Str := s.data

/-- The whitespace characters removed by Python's `str.strip()`
(restricted to the ASCII whitespace set; the exotic Unicode whitespace
code points also stripped by Python are abstracted away, which is
irrelevant for ASCII-space reasoning). -/
def pyWs (c : Char) : Bool :=
  c = ' ' || c = '\t' || c = '\n' || c = '\r' || c = '\x0b' || c = '\x0c'

/-- Python `s.strip()`: drop leading and trailing whitespace. -/
def strip (s : Str) : Str :=
  ((s.dropWhile pyWs).reverse.dropWhile pyWs).reverse

/-- `clean_term` from `src/sqg/sqg.py` (lines 6–21): `if not term: return ""`,
then `term = term.strip()`, then quote if `quote or " " in term`. -/
def clean_term (term : Str) (quote : Bool) : Str :=
  if term.isEmpty then []
  else
    let t := strip term
    if quote || t.contains ' ' then '"' :: (t ++ ['"']) else t

/-- Python's lexicographic `≤` on strings: compare code points of the
first differing position; a proper prefix is smaller. -/
def leStr : Str → Str → Bool
  | [], _ => true
  | _ :: _, [] => false
  | a :: as, b :: bs => if a = b then leStr as bs else decide (a.toNat < b.toNat)

/-- `leStr` as a proposition, for use with Mathlib's sorting lemmas. -/
def strle (a b : Str) : Prop := leStr a b = true

instance : DecidableRel strle := fun a b => inferInstanceAs (Decidable (leStr a b = true))

theorem char_toNat_inj {a b : Char} (h : a.toNat = b.toNat) : a = b :=
  Char.eq_of_val_eq (UInt32.eq_of_toBitVec_eq (BitVec.eq_of_toNat_eq h))

theorem leStr_total : ∀ a b : Str, leStr a b = true ∨ leStr b a = true
  | [], _ => Or.inl rfl
  | _ :: _, [] => Or.inr rfl
  | a :: as, b :: bs => by
      by_cases hab : a = b
      · subst hab
        simpa [leStr] using leStr_total as bs
      · have hn : a.toNat ≠ b.toNat := fun h => hab (char_toNat_inj h)
        rcases Nat.lt_or_ge a.toNat b.toNat with h | h
        · exact Or.inl (by simp [leStr, hab, h])
        · have hba : b.toNat < a.toNat :=
            Nat.lt_of_le_of_ne h (fun hh => hn hh.symm)
          exact Or.inr (by simp [leStr, Ne.symm hab, hba])

theorem leStr_trans :
    ∀ a b c : Str, leStr a b = true → leStr b c = true → leStr a c = true
  | [], _, _, _, _ => rfl
  | _ :: _, [], _, h1, _ => by simp [leStr] at h1
  | _ :: _, _ :: _, [], _, h2 => by simp [leStr] at h2
  | a :: as, b :: bs, c :: cs, h1, h2 => by
      by_cases hab : a = b <;> by_cases hbc : b = c
      · subst hab; subst hbc
        simp [leStr] at h1 h2 ⊢
        exact leStr_trans as bs cs h1 h2
      · subst hab
        simp [leStr, hbc] at h2
        have hac : a ≠ c := fun h => hbc h
        simp [leStr, hac, h2]
      · subst hbc
        simp [leStr, hab] at h1
        simp [leStr, hab, h1]
      · simp [leStr, hab] at h1
        simp [leStr, hbc] at h2
        have hlt : a.toNat < c.toNat := Nat.lt_trans h1 h2
        have hac : a ≠ c := by
          intro h
          subst h
          exact absurd hlt (Nat.lt_irrefl _)
        simp [leStr, hac, hlt]

theorem leStr_antisymm : ∀ a b : Str, leStr a b = true → leStr b a = true → a = b
  | [], [], _, _ => rfl
  | [], _ :: _, _, h2 => by simp [leStr] at h2
  | _ :: _, [], h1, _ => by simp [leStr] at h1
  | a :: as, b :: bs, h1, h2 => by
      by_cases hab : a = b
      · subst hab
        simp [leStr] at h1 h2
        rw [leStr_antisymm as bs h1 h2]
      · exfalso
        simp [leStr, hab] at h1
        simp [leStr, Ne.symm hab] at h2
        exact absurd h1 (Nat.lt_asymm h2)

instance : IsTotal Str strle := ⟨leStr_total⟩
instance : IsTrans Str strle := ⟨leStr_trans⟩
instance : IsAntisymm Str strle := ⟨leStr_antisymm⟩

/-- Python's `sorted` on a collection of strings: some ascending sorted
permutation; since `strle` is a linear order this determines the result
uniquely, so any correct sorting algorithm is a faithful model. -/
def sortStr (l : List Str) : List Str := List.insertionSort strle l

theorem sortStr_perm (l : List Str) : (sortStr l).Perm l :=
  List.perm_insertionSort _ _

theorem sortStr_sorted (l : List Str) : List.Sorted strle (sortStr l) :=
  List.sorted_insertionSort _ _

theorem sortStr_congr {l1 l2 : List Str} (h : l1.Perm l2) : sortStr l1 = sortStr l2 :=
  List.eq_of_perm_of_sorted
    ((sortStr_perm l1).trans (h.trans (sortStr_perm l2).symm))
    (sortStr_sorted l1) (sortStr_sorted l2)

/-- `format_group` from `src/sqg/sqg.py` (lines 23–34):
`formatted = [clean_term(term, quote) for term in sorted(terms) if term]`,
then `"({joined})"` with `' {internal_operator} '` as separator if
`formatted` is non-empty, else the empty string. -/
def format_group (terms : List Str) (quote : Bool) (internal_operator : Str) : Str :=
  let formatted :=
    ((sortStr terms).filter (fun t => !t.isEmpty)).map (fun t => clean_term t quote)
  if formatted.isEmpty then []
  else ('(' :: List.intercalate (' ' :: (internal_operator ++ [' '])) formatted) ++ [')']

/-- A per-group settings dict `{"quote": bool, "operator": str}` with the
optional key `"internal_operator"` (read in the source via
`.get("internal_operator", "OR")`). -/
structure GroupLogic where
  quote : Bool
  operator : Str
  internal_operator : Option Str
deriving DecidableEq

/-- Python dict lookup on the association-list model (first match wins;
dict keys are unique, so this is exactly `d[key]` / `key in d`). -/
def lookupG {α : Type} : List (Str × α) → Str → Option α
  | [], _ => none
  | (k, v) :: rest, key => if k = key then some v else lookupG rest key

/-- The exceptions the assembler can raise.
* `configurationError g`: Python raises `KeyError(g)` when
  `group_logic[g]` is accessed and `g` has no logic entry; the spec names
  this failure `ConfigurationError`.
* `invalidMainGroupError msg`: Python raises `ValueError(msg)` for a main
  group missing from the terms mapping; the spec names it
  `InvalidMainGroupError`. -/
inductive SQGError
  | configurationError (group : Str)
  | invalidMainGroupError (msg : Str)
deriving DecidableEq

/-- The loop of `build_query` (lines 57–66): for each `(group, terms)` of
the non-empty groups, in order, look up the group's logic (a missing
entry raises), format the clause, and append `" <operator>"` except after
the last group. -/
def buildParts (gl : List (Str × GroupLogic)) :
    List (Str × List Str) → Except SQGError (List Str)
  | [] => .ok []
  | (group, terms) :: rest =>
      match lookupG gl group with
      | none => .error (.configurationError group)
      | some l =>
          let group_str := format_group terms l.quote (l.internal_operator.getD (str "OR"))
          if rest.isEmpty then .ok [group_str]
          else
            match buildParts gl rest with
            | .error e => .error e
            | .ok parts => .ok ((group_str ++ ' ' :: l.operator) :: parts)

/-- `build_query` from `src/sqg/sqg.py` (lines 36–68): keep the groups
with non-empty term sets in their original mapping order, build the parts,
and join them with single spaces. -/
def build_query (group_terms : List (Str × List Str))
    (group_logic : List (Str × GroupLogic)) : Except SQGError Str :=
  match buildParts group_logic (group_terms.filter (fun p => !p.2.isEmpty)) with
  | .error e => .error e
  | .ok parts => .ok (List.intercalate [' '] parts)

/-- The inner static-group loop of `build_queries_by_main_group`
(lines 98–104): every static group contributes
`f"{group_str} {op}"` — the trailing operator is appended even for the
last static group, because the main-group clause always follows. -/
def staticParts (gl : List (Str × GroupLogic)) :
    List (Str × List Str) → Except SQGError (List Str)
  | [] => .ok []
  | (group, terms) :: rest =>
      match lookupG gl group with
      | none => .error (.configurationError group)
      | some l =>
          let group_str := format_group terms l.quote (l.internal_operator.getD (str "OR"))
          match staticParts gl rest with
          | .error e => .error e
          | .ok parts => .ok ((group_str ++ ' ' :: l.operator) :: parts)

/-- The outer loop of `build_queries_by_main_group` (lines 95–112): one
iteration per sorted main-group value `v`; each iteration recomputes the
static parts, then formats the main clause as the singleton set `{v}`
with the main group's own settings, and joins everything with spaces. -/
def mainLoop (gl : List (Str × GroupLogic)) (static_groups : List (Str × List Str))
    (main_group : Str) : List Str → Except SQGError (List (Str × Str))
  | [] => .ok []
  | val :: vs =>
      match staticParts gl static_groups with
      | .error e => .error e
      | .ok parts =>
          match lookupG gl main_group with
          | none => .error (.configurationError main_group)
          | some ml =>
              let main_str :=
                format_group [val] ml.quote (ml.internal_operator.getD (str "OR"))
              match mainLoop gl static_groups main_group vs with
              | .error e => .error e
              | .ok qs => .ok ((val, List.intercalate [' '] (parts ++ [main_str])) :: qs)

/-- `build_queries_by_main_group` from `src/sqg/sqg.py` (lines 70–114):
raise `ValueError` when the main group is not a key of `group_terms`;
otherwise fan out one query per sorted main-group value over the static
(non-main, non-empty) groups taken in original mapping order. -/
def build_queries_by_main_group (group_terms : List (Str × List Str))
    (group_logic : List (Str × GroupLogic)) (main_group : Str) :
    Except SQGError (List (Str × Str)) :=
  match lookupG group_terms main_group with
  | none =>
      .error (.invalidMainGroupError
        (str "Main group '" ++ main_group ++ str "' not found in group terms."))
  | some main_terms =>
      let static_groups :=
        group_terms.filter (fun p => decide (p.1 ≠ main_group) && !p.2.isEmpty)
      mainLoop group_logic static_groups main_group (sortStr main_terms)

/-- Concrete terms mapping for exercising `build_queries_by_main_group`:
one static group `a` and a main group `m` with two values given out of
order. -/
def gtsW3 : List (Str × List Str) :=
  [(str "a", [str "x y"]), (str "m", [str "v2", str "v1"])]

/-- Logic mapping matching `gtsW3`. -/
def glW3 : List (Str × GroupLogic) :=
  [(str "a", ⟨false, str "AND", none⟩), (str "m", ⟨true, str "OR", none⟩)]

/-- The query family the code produces for `gtsW3`/`glW3` with main group
`m`. -/
def qsW3 : List (Str × Str) :=
  [(str "v1", str "(\"x y\") AND (\"v1\")"),
   (str "v2", str "(\"x y\") AND (\"v2\")")]

/-- Concrete single-group terms mapping (the spec's fruit scenario, with
the set's insertion order deliberately reversed). -/
def gtsW4 : List (Str × List Str) := [(str "fruit", [str "banana", str "apple"])]

/-- Logic mapping for `gtsW4`. -/
def glW4 : List (Str × GroupLogic) := [(str "fruit", ⟨false, str "OR", some (str "OR")⟩)]

/-- The query family produced for `gtsW4`/`glW4` with main group `fruit`. -/
def qsW4 : List (Str × Str) := [(str "apple", str "(apple)"), (str "banana", str "(banana)")]

/-- Helper: `isEmpty` of a mapped list equals `isEmpty` of the list. -/
theorem isEmpty_map {α β : Type} (f : α → β) (l : List α) :
    (l.map f).isEmpty = l.isEmpty := by
  cases l <;> rfl

/-- Helper: a non-nil list has `isEmpty = false`. -/
theorem isEmpty_false_of_ne {α : Type} {l : List α} (h : l ≠ []) :
    l.isEmpty = false := by
  cases hl : l.isEmpty
  · rfl
  · exact absurd (List.isEmpty_iff.mp hl) h

/-- Helper: `isEmpty` expressed through the length, to transport it along
a permutation. -/
theorem isEmpty_eq_decide_length {α : Type} (l : List α) :
    l.isEmpty = decide (l.length = 0) := by
  cases l <;> rfl

/-- Helper: list `contains` agrees with membership (Python `c in s`). -/
theorem contains_iff (t : Str) (c : Char) : t.contains c = true ↔ c ∈ t :=
  List.elem_iff

/-- Helper: joining a single part needs no separator. -/
theorem intercalate_single (sep a : Str) : List.intercalate sep [a] = a := by
  simp [List.intercalate]

/-- Helper: stripping an all-whitespace string yields the empty string. -/
theorem strip_eq_nil_of_ws (term : Str) (h : ∀ c ∈ term, pyWs c = true) :
    strip term = [] := by
  unfold strip
  rw [List.dropWhile_eq_nil_iff.mpr h]
  rfl

/-- Helper: if some listed group has no logic entry, the `build_query`
loop raises a lookup failure (Python `KeyError`) for some such group. -/
theorem buildParts_error_of_missing (gl : List (Str × GroupLogic)) :
    ∀ items : List (Str × List Str),
      (∃ p ∈ items, lookupG gl p.1 = none) →
      ∃ g, lookupG gl g = none ∧
        buildParts gl items = .error (.configurationError g)
  | [], h => absurd h (by simp)
  | (g, ts) :: rest, h => by
      cases hl : lookupG gl g with
      | none => exact ⟨g, hl, by simp [buildParts, hl]⟩
      | some l =>
          obtain ⟨p, hp, hnone⟩ := h
          rcases List.mem_cons.mp hp with hph | hpr
          · rw [hph] at hnone
            exact absurd hnone (by simp [hl])
          · obtain ⟨g', h1, h2⟩ :=
              buildParts_error_of_missing gl rest ⟨p, hpr, hnone⟩
            have hre : rest ≠ [] := by
              intro hr
              rw [hr] at hpr
              exact absurd hpr (List.not_mem_nil p)
            have hb : rest.isEmpty = false := isEmpty_false_of_ne hre
            exact ⟨g', h1, by simp [buildParts, hl, hb, h2]⟩

/-- Claim C1: if some non-empty group of the terms mapping has no entry
in the logic mapping, `build_query` raises the configuration failure
(Python `KeyError` on `group_logic[group]`, the spec's
`ConfigurationError`) and returns no query string. -/
theorem C1_missing_logic_raises_configuration_error
    (gts : List (Str × List Str)) (gl : List (Str × GroupLogic))
    (h : ∃ g ts, (g, ts) ∈ gts ∧ ts ≠ [] ∧ lookupG gl g = none) :
    ∃ g, lookupG gl g = none ∧
      build_query gts gl = .error (.configurationError g) := by
  obtain ⟨g, ts, hmem, hne, hnone⟩ := h
  have hmf : (g, ts) ∈ gts.filter (fun p => !p.2.isEmpty) :=
    List.mem_filter.mpr ⟨hmem, by simp [isEmpty_false_of_ne hne]⟩
  obtain ⟨g', h1, h2⟩ :=
    buildParts_error_of_missing gl _ ⟨(g, ts), hmf, hnone⟩
  exact ⟨g', h1, by simp [build_query, h2]⟩

/-- Witness for C1 at a concrete input: group `a` is non-empty and the
logic mapping is empty. -/
theorem C1_witness :
    ∃ g, lookupG ([] : List (Str × GroupLogic)) g = none ∧
      build_query [(str "a", [str "x"])] [] = .error (.configurationError g) :=
  C1_missing_logic_raises_configuration_error _ _
    ⟨str "a", [str "x"], by decide, by decide, rfl⟩

/-- Counterexample for claim C2: for the term `" a"` (which contains a
space and is not pure whitespace) with `quote = false`, the claim
predicts the quoted term `"\" a\""`; the code strips first and returns
the bare `"a"`, which is also not the term unchanged. -/
theorem C2_counterexample :
    clean_term (str " a") false = str "a" ∧
    str "a" ≠ str "\" a\"" ∧
    str "a" ≠ str " a" :=
  ⟨by decide, by decide, by decide⟩

/-- Claim C2 as amended: `clean_term` returns the empty string only for
the empty term; otherwise it strips leading/trailing whitespace, wraps
the *stripped* term in double quotes exactly when `quote` is true or the
stripped term contains a space, and returns the stripped term unchanged
otherwise; a whitespace-only term yields `""` (two quote characters)
when `quote` is true and the empty string when `quote` is false. -/
theorem C2_amended_clean_term
    (term : Str) (q : Bool) :
    (term = [] → clean_term term q = []) ∧
    (term ≠ [] → (q = true ∨ ' ' ∈ strip term) →
        clean_term term q = '"' :: (strip term ++ ['"'])) ∧
    (term ≠ [] → q = false → ' ' ∉ strip term →
        clean_term term q = strip term) ∧
    (term ≠ [] → (∀ c ∈ term, pyWs c = true) → q = false →
        clean_term term q = []) := by
  refine ⟨?_, ?_, ?_, ?_⟩
  · rintro rfl
    rfl
  · intro hne hq
    have hb : term.isEmpty = false := isEmpty_false_of_ne hne
    have hcond : (q || (strip term).contains ' ') = true := by
      rcases hq with hq | hq
      · rw [hq]
        rfl
      · rw [(contains_iff _ _).mpr hq, Bool.or_true]
    unfold clean_term
    rw [hb, if_neg Bool.false_ne_true]
    exact if_pos hcond
  · intro hne hq hnm
    have hb : term.isEmpty = false := isEmpty_false_of_ne hne
    have hc : (strip term).contains ' ' = false := by
      cases hcc : (strip term).contains ' '
      · rfl
      · exact absurd ((contains_iff _ _).mp hcc) hnm
    have hcond : ¬ ((q || (strip term).contains ' ') = true) := by
      rw [hq, hc]
      exact Bool.false_ne_true
    unfold clean_term
    rw [hb, if_neg Bool.false_ne_true]
    exact if_neg hcond
  · intro hne hws hq
    have hb : term.isEmpty = false := isEmpty_false_of_ne hne
    unfold clean_term
    rw [hb, if_neg Bool.false_ne_true, strip_eq_nil_of_ws term hws, hq]
    decide

/-- Witness for the amended C2 at the concrete term `"a b"` with
`quote = false`: the embedded space forces quoting of the stripped term. -/
theorem C2_witness :
    clean_term (str "a b") false = '"' :: (strip (str "a b") ++ ['"']) :=
  (C2_amended_clean_term (str "a b") false).2.1 (by decide) (Or.inr (by decide))

/-- Counterexample for claim C5: on the spec's scenario the code returns
`(blue OR red) AND ("large")` — the singleton `size` clause is
parenthesized like every formatted group — not
`(blue OR red) AND "large"`. -/
theorem C5_counterexample :
    build_query
        [(str "color", [str "red", str "blue"]), (str "size", [str "large"])]
        [(str "color", ⟨false, str "AND", some (str "OR")⟩),
         (str "size", ⟨true, str "AND", some (str "OR")⟩)] =
      .ok (str "(blue OR red) AND (\"large\")") ∧
    str "(blue OR red) AND (\"large\")" ≠ str "(blue OR red) AND \"large\"" :=
  ⟨rfl, by decide⟩

/-- Claim C5 as amended: on the scenario's mappings `build_query` returns
exactly `(blue OR red) AND ("large")`. -/
theorem C5_amended_scenario :
    build_query
        [(str "color", [str "red", str "blue"]), (str "size", [str "large"])]
        [(str "color", ⟨false, str "AND", some (str "OR")⟩),
         (str "size", ⟨true, str "AND", some (str "OR")⟩)] =
      .ok (str "(blue OR red) AND (\"large\")") := rfl

/-- Helper: `format_group` depends on its term set only up to
permutation, because sorting by the linear order `strle` renders any
insertion order the same. -/
theorem format_group_congr {t1 t2 : List Str} (h : t1.Perm t2) (q : Bool) (io : Str) :
    format_group t1 q io = format_group t2 q io := by
  unfold format_group
  rw [sortStr_congr h]

/-- Claim C6: `format_group` (i) is insertion-order independent, (ii)
produces its clause from a sorted permutation of the non-empty input
terms, each formatted by `clean_term` and joined by
space-operator-space inside one pair of parentheses, (iii) returns the
empty string exactly when no non-empty term exists, and (iv) still
parenthesizes a singleton. -/
theorem C6_format_group_contract :
    (∀ (t1 t2 : List Str) (q : Bool) (io : Str), t1.Perm t2 →
        format_group t1 q io = format_group t2 q io) ∧
    (∀ (terms : List Str) (q : Bool) (io : Str),
        ∃ ts : List Str,
          ts.Perm (terms.filter (fun t => !t.isEmpty)) ∧
          List.Sorted strle ts ∧
          format_group terms q io =
            (if ts.isEmpty then []
             else ('(' :: List.intercalate (' ' :: (io ++ [' ']))
                     (ts.map (fun t => clean_term t q))) ++ [')'])) ∧
    (∀ (terms : List Str) (q : Bool) (io : Str),
        format_group terms q io = [] ↔
          terms.filter (fun t => !t.isEmpty) = []) ∧
    (∀ (x : Str) (q : Bool) (io : Str), x ≠ [] →
        format_group [x] q io = ('(' :: clean_term x q) ++ [')']) := by
  refine ⟨fun t1 t2 q io h => format_group_congr h q io, ?_, ?_, ?_⟩
  · intro terms q io
    refine ⟨(sortStr terms).filter (fun t => !t.isEmpty), ?_, ?_, ?_⟩
    · exact (sortStr_perm terms).filter _
    · exact List.Pairwise.sublist (List.filter_sublist _) (sortStr_sorted terms)
    · simp only [format_group, isEmpty_map]
  · intro terms q io
    constructor
    · intro h
      by_cases hb : (sortStr terms).filter (fun t => !t.isEmpty) = []
      · have hperm := (sortStr_perm terms).filter (fun t => !t.isEmpty)
        rw [hb] at hperm
        exact (hperm.nil_eq).symm
      · exfalso
        have hfb : ((sortStr terms).filter (fun t => !t.isEmpty)).isEmpty = false :=
          isEmpty_false_of_ne hb
        rw [format_group] at h
        simp only [isEmpty_map, hfb, if_neg Bool.false_ne_true] at h
        exact absurd h (by simp)
    · intro h
      have hperm := (sortStr_perm terms).filter (fun t => !t.isEmpty)
      rw [h] at hperm
      have hnil := hperm.eq_nil
      simp [format_group, hnil]
  · intro x q io hx
    have hb : x.isEmpty = false := isEmpty_false_of_ne hx
    simp [format_group, sortStr, List.insertionSort, List.orderedInsert, hb,
      intercalate_single]

/-- Witness for C6 at concrete inputs: a transposed two-element set
formats identically, and a singleton set is parenthesized. -/
theorem C6_witness :
    format_group [str "red", str "blue"] false (str "OR") =
      format_group [str "blue", str "red"] false (str "OR") ∧
    format_group [str "x"] true (str "AND") = ('(' :: clean_term (str "x") true) ++ [')'] :=
  ⟨C6_format_group_contract.1 _ _ _ _ (by decide),
   C6_format_group_contract.2.2.2 _ _ _ (by decide)⟩

/-- Claim C7: an empty group contributes neither text nor operator —
`build_query` on a mapping with an empty group equals `build_query` with
that group removed; with exactly one non-empty group the result is just
that group's clause; with no non-empty group the result is the empty
string. -/
theorem C7_empty_group_skip :
    (∀ (gl : List (Str × GroupLogic)) (pre post : List (Str × List Str)) (g : Str),
        build_query (pre ++ (g, ([] : List Str)) :: post) gl =
          build_query (pre ++ post) gl) ∧
    (∀ (gts : List (Str × List Str)) (gl : List (Str × GroupLogic))
        (g : Str) (ts : List Str) (l : GroupLogic),
        gts.filter (fun p => !p.2.isEmpty) = [(g, ts)] →
        lookupG gl g = some l →
        build_query gts gl =
          .ok (format_group ts l.quote (l.internal_operator.getD (str "OR")))) ∧
    (∀ (gts : List (Str × List Str)) (gl : List (Str × GroupLogic)),
        gts.filter (fun p => !p.2.isEmpty) = [] →
        build_query gts gl = .ok []) := by
  refine ⟨?_, ?_, ?_⟩
  · intro gl pre post g
    unfold build_query
    rw [List.filter_append, List.filter_append, List.filter_cons]
    simp
  · intro gts gl g ts l hf hl
    unfold build_query
    rw [hf]
    simp [buildParts, hl, intercalate_single]
  · intro gts gl hf
    unfold build_query
    rw [hf]
    rfl

/-- Witness for C7 at concrete inputs: dropping an empty group `b`,
a single non-empty group, and an all-empty mapping. -/
theorem C7_witness :
    build_query ([(str "a", [str "x"])] ++ (str "b", ([] : List Str)) :: [(str "c", [str "y"])])
        [(str "a", ⟨false, str "AND", none⟩), (str "c", ⟨false, str "OR", none⟩)] =
      build_query ([(str "a", [str "x"])] ++ [(str "c", [str "y"])])
        [(str "a", ⟨false, str "AND", none⟩), (str "c", ⟨false, str "OR", none⟩)] ∧
    build_query [(str "a", ([] : List Str)), (str "b", [str "x"])]
        [(str "b", ⟨false, str "AND", none⟩)] =
      .ok (format_group [str "x"] false ((none : Option Str).getD (str "OR"))) ∧
    build_query [(str "a", ([] : List Str))] ([] : List (Str × GroupLogic)) = .ok [] :=
  ⟨C7_empty_group_skip.1 _ _ _ _,
   C7_empty_group_skip.2.1 _ _ _ _ ⟨false, str "AND", none⟩ rfl rfl,
   C7_empty_group_skip.2.2 _ _ rfl⟩

/-- Helper: the non-empty-group filter respects keyed permutation
equivalence of two terms mappings. -/
theorem forall2_filter_nonempty {gts1 gts2 : List (Str × List Str)}
    (h : List.Forall₂ (fun p1 p2 => p1.1 = p2.1 ∧ p1.2.Perm p2.2) gts1 gts2) :
    List.Forall₂ (fun p1 p2 => p1.1 = p2.1 ∧ p1.2.Perm p2.2)
      (gts1.filter (fun p => !p.2.isEmpty))
      (gts2.filter (fun p => !p.2.isEmpty)) := by
  induction h with
  | nil => exact .nil
  | @cons a b t1 t2 hp ht ih =>
      have hemp : a.2.isEmpty = b.2.isEmpty := by
        rw [isEmpty_eq_decide_length, isEmpty_eq_decide_length, hp.2.length_eq]
      rw [List.filter_cons, List.filter_cons, hemp]
      cases hb : b.2.isEmpty
      · simp only [Bool.not_false, if_pos rfl]
        exact List.Forall₂.cons hp ih
      · simp only [Bool.not_true]
        rw [if_neg Bool.false_ne_true]
        exact ih

/-- Helper: the `build_query` loop is invariant under replacing each
group's term list by a permutation of it. -/
theorem buildParts_congr (gl : List (Str × GroupLogic)) :
    ∀ {items1 items2 : List (Str × List Str)},
      List.Forall₂ (fun p1 p2 => p1.1 = p2.1 ∧ p1.2.Perm p2.2) items1 items2 →
      buildParts gl items1 = buildParts gl items2 := by
  intro items1 items2 h
  induction h with
  | nil => rfl
  | @cons a b t1 t2 hp ht ih =>
      obtain ⟨g1, ts1⟩ := a
      obtain ⟨g2, ts2⟩ := b
      obtain ⟨hk, hperm⟩ := hp
      cases hk
      have hperm2 : ts1.Perm ts2 := hperm
      have hemp : t1.isEmpty = t2.isEmpty := by
        rw [isEmpty_eq_decide_length, isEmpty_eq_decide_length, ht.length_eq]
      cases hl : lookupG gl g1
      · simp only [buildParts, hl]
      · simp only [buildParts, hl]
        rw [format_group_congr hperm2, hemp, ih]

/-- Claim C9: determinism of the formatter and the combined assembler —
for the same term set (any insertion order) and settings, `format_group`
produces the identical string, and for the same mappings (same key
order, same value sets) `build_query` produces the identical result. -/
theorem C9_determinism :
    (∀ (t1 t2 : List Str) (q : Bool) (io : Str), t1.Perm t2 →
        format_group t1 q io = format_group t2 q io) ∧
    (∀ (gts1 gts2 : List (Str × List Str)) (gl : List (Str × GroupLogic)),
        List.Forall₂ (fun p1 p2 => p1.1 = p2.1 ∧ p1.2.Perm p2.2) gts1 gts2 →
        build_query gts1 gl = build_query gts2 gl) :=
  ⟨fun t1 t2 q io h => format_group_congr h q io,
   fun gts1 gts2 gl h => by
     unfold build_query
     rw [buildParts_congr gl (forall2_filter_nonempty h)]⟩

/-- Witness for C9 at concrete inputs: permuting a term set changes
neither the formatted group nor the combined query. -/
theorem C9_witness :
    format_group [str "b", str "a"] false (str "OR") =
      format_group [str "a", str "b"] false (str "OR") ∧
    build_query [(str "g", [str "b", str "a"])] [(str "g", ⟨false, str "AND", none⟩)] =
      build_query [(str "g", [str "a", str "b"])] [(str "g", ⟨false, str "AND", none⟩)] :=
  ⟨C9_determinism.1 _ _ _ _ (by decide),
   C9_determinism.2 _ _ _ (List.Forall₂.cons ⟨rfl, by decide⟩ List.Forall₂.nil)⟩

/-- Helper: once the static parts and the main group's logic are fixed,
the per-value loop maps each value to its query. -/
theorem mainLoop_eq (gl : List (Str × GroupLogic)) (static_groups : List (Str × List Str))
    (main : Str) (parts : List Str) (ml : GroupLogic)
    (hsp : staticParts gl static_groups = .ok parts)
    (hml : lookupG gl main = some ml) :
    ∀ vs : List Str,
      mainLoop gl static_groups main vs =
        .ok (vs.map fun v => (v, List.intercalate [' ']
          (parts ++ [format_group [v] ml.quote (ml.internal_operator.getD (str "OR"))])))
  | [] => rfl
  | v :: vs => by
      simp only [mainLoop, hsp, hml,
        mainLoop_eq gl static_groups main parts ml hsp hml vs, List.map_cons]

/-- Helper: a successful per-value loop returns exactly one labelled
query per processed value, labels in processing order. -/
theorem mainLoop_ok_map_fst (gl : List (Str × GroupLogic))
    (static_groups : List (Str × List Str)) (main : Str) :
    ∀ (vs : List Str) (qs : List (Str × Str)),
      mainLoop gl static_groups main vs = .ok qs → qs.map Prod.fst = vs
  | [], qs, h => by
      simp only [mainLoop] at h
      cases h
      rfl
  | v :: vs, qs, h => by
      simp only [mainLoop] at h
      cases hsp : staticParts gl static_groups with
      | error e => rw [hsp] at h; cases h
      | ok parts =>
          rw [hsp] at h
          cases hml : lookupG gl main with
          | none => rw [hml] at h; cases h
          | some ml =>
              rw [hml] at h
              cases hr : mainLoop gl static_groups main vs with
              | error e => rw [hr] at h; cases h
              | ok qs' =>
                  rw [hr] at h
                  cases h
                  simp only [List.map_cons]
                  rw [mainLoop_ok_map_fst gl static_groups main vs qs' hr]

/-- Helper: a successful static-parts run pairs each static group with
its formatted clause followed by its configured operator. -/
theorem staticParts_ok_forall2 (gl : List (Str × GroupLogic)) :
    ∀ (items : List (Str × List Str)) (parts : List Str),
      staticParts gl items = .ok parts →
      List.Forall₂ (fun p part => ∃ l, lookupG gl p.1 = some l ∧
          part = format_group p.2 l.quote (l.internal_operator.getD (str "OR"))
                   ++ ' ' :: l.operator) items parts
  | [], parts, h => by
      simp only [staticParts] at h
      cases h
      exact .nil
  | (g, ts) :: rest, parts, h => by
      simp only [staticParts] at h
      cases hl : lookupG gl g with
      | none => rw [hl] at h; cases h
      | some l =>
          rw [hl] at h
          cases hr : staticParts gl rest with
          | error e => rw [hr] at h; cases h
          | ok parts' =>
              rw [hr] at h
              cases h
              exact .cons ⟨l, hl, rfl⟩ (staticParts_ok_forall2 gl rest parts' hr)

/-- Helper: with an empty main-group term set the assembler immediately
returns the empty query list, whatever the logic mapping holds. -/
theorem bqbmg_empty_main (gts : List (Str × List Str)) (gl : List (Str × GroupLogic))
    (main : Str) (h : lookupG gts main = some ([] : List Str)) :
    build_queries_by_main_group gts gl main = .ok [] := by
  simp only [build_queries_by_main_group, h]
  rfl

/-- Claim C3: with the main group present and non-empty, every produced
query is the space-joined concatenation of each non-empty static group's
clause-plus-operator, in original group order, followed by the main
group's clause formatted as the singleton set of the query's own value
with the main group's settings and no trailing operator. -/
theorem C3_query_shape
    (gts : List (Str × List Str)) (gl : List (Str × GroupLogic)) (main : Str)
    (ts : List Str) (qs : List (Str × Str))
    (hts : lookupG gts main = some ts) (hne : ts ≠ [])
    (hok : build_queries_by_main_group gts gl main = .ok qs) :
    ∃ ml parts,
      lookupG gl main = some ml ∧
      staticParts gl
          (gts.filter (fun p => decide (p.1 ≠ main) && !p.2.isEmpty)) = .ok parts ∧
      List.Forall₂ (fun p part => ∃ l, lookupG gl p.1 = some l ∧
          part = format_group p.2 l.quote (l.internal_operator.getD (str "OR"))
                   ++ ' ' :: l.operator)
        (gts.filter (fun p => decide (p.1 ≠ main) && !p.2.isEmpty)) parts ∧
      qs = (sortStr ts).map (fun v => (v, List.intercalate [' ']
          (parts ++ [format_group [v] ml.quote (ml.internal_operator.getD (str "OR"))]))) := by
  simp only [build_queries_by_main_group, hts] at hok
  have hsne : sortStr ts ≠ [] := by
    intro hnil
    have hperm := sortStr_perm ts
    rw [hnil] at hperm
    exact hne hperm.nil_eq.symm
  obtain ⟨v, vs, hvs⟩ := List.exists_cons_of_ne_nil hsne
  have hok2 := hok
  rw [hvs] at hok2
  simp only [mainLoop] at hok2
  cases hsp : staticParts gl (gts.filter (fun p => decide (p.1 ≠ main) && !p.2.isEmpty)) with
  | error e => rw [hsp] at hok2; cases hok2
  | ok parts =>
      rw [hsp] at hok2
      cases hml : lookupG gl main with
      | none => rw [hml] at hok2; cases hok2
      | some ml =>
          refine ⟨ml, parts, rfl, rfl, staticParts_ok_forall2 gl _ parts hsp, ?_⟩
          have heq := mainLoop_eq gl
            (gts.filter (fun p => decide (p.1 ≠ main) && !p.2.isEmpty))
            main parts ml hsp hml (sortStr ts)
          rw [heq] at hok
          cases hok
          rfl

/-- Witness for C3 at `gtsW3`/`glW3`: one static group, main group `m`
with the two values `v2`, `v1` given out of order. -/
theorem C3_witness :
    ∃ ml parts,
      lookupG glW3 (str "m") = some ml ∧
      staticParts glW3
          (gtsW3.filter (fun p => decide (p.1 ≠ str "m") && !p.2.isEmpty)) = .ok parts ∧
      List.Forall₂ (fun p part => ∃ l, lookupG glW3 p.1 = some l ∧
          part = format_group p.2 l.quote (l.internal_operator.getD (str "OR"))
                   ++ ' ' :: l.operator)
        (gtsW3.filter (fun p => decide (p.1 ≠ str "m") && !p.2.isEmpty)) parts ∧
      qsW3 = (sortStr [str "v2", str "v1"]).map (fun v => (v, List.intercalate [' ']
          (parts ++ [format_group [v] ml.quote (ml.internal_operator.getD (str "OR"))]))) :=
  C3_query_shape gtsW3 glW3 (str "m") [str "v2", str "v1"] qsW3 rfl (by decide) rfl

/-- Claim C4: a successful fan-out returns exactly one labelled query per
value of the main group's term set, labels being precisely the ascending
sort of that set (distinct when the set is duplicate-free); an empty main
term set yields the empty query list, not an error. -/
theorem C4_cardinality_and_order :
    (∀ (gts : List (Str × List Str)) (gl : List (Str × GroupLogic))
        (main : Str) (qs : List (Str × Str)),
        build_queries_by_main_group gts gl main = .ok qs →
        ∃ ts, lookupG gts main = some ts ∧
          qs.map Prod.fst = sortStr ts ∧
          (qs.map Prod.fst).Perm ts ∧
          List.Sorted strle (qs.map Prod.fst) ∧
          (ts.Nodup → (qs.map Prod.fst).Nodup)) ∧
    (∀ (gts : List (Str × List Str)) (gl : List (Str × GroupLogic)) (main : Str),
        lookupG gts main = some ([] : List Str) →
        build_queries_by_main_group gts gl main = .ok []) := by
  constructor
  · intro gts gl main qs hok
    cases hts : lookupG gts main with
    | none => simp only [build_queries_by_main_group, hts] at hok; cases hok
    | some ts =>
        simp only [build_queries_by_main_group, hts] at hok
        have hmap : qs.map Prod.fst = sortStr ts := mainLoop_ok_map_fst _ _ _ _ _ hok
        refine ⟨ts, rfl, hmap, ?_, ?_, ?_⟩
        · rw [hmap]
          exact sortStr_perm ts
        · rw [hmap]
          exact sortStr_sorted ts
        · intro hnd
          rw [hmap]
          exact (sortStr_perm ts).symm.nodup hnd
  · intro gts gl main h
    exact bqbmg_empty_main gts gl main h

/-- Witness for C4 at `gtsW4`/`glW4` (the spec's fruit scenario with the
set's insertion order reversed) and at an empty main group. -/
theorem C4_witness :
    (∃ ts, lookupG gtsW4 (str "fruit") = some ts ∧
        qsW4.map Prod.fst = sortStr ts ∧
        (qsW4.map Prod.fst).Perm ts ∧
        List.Sorted strle (qsW4.map Prod.fst) ∧
        (ts.Nodup → (qsW4.map Prod.fst).Nodup)) ∧
    build_queries_by_main_group [(str "e", ([] : List Str))]
        ([] : List (Str × GroupLogic)) (str "e") = .ok [] :=
  ⟨C4_cardinality_and_order.1 gtsW4 glW4 (str "fruit") qsW4 rfl,
   C4_cardinality_and_order.2 _ _ _ rfl⟩

/-- Claim C8: a main group absent from the terms mapping makes
`build_queries_by_main_group` raise the invalid-main-group failure
(Python `ValueError`, the spec's `InvalidMainGroupError`) whose message
carries the offending name. -/
theorem C8_invalid_main_group
    (gts : List (Str × List Str)) (gl : List (Str × GroupLogic)) (main : Str)
    (h : lookupG gts main = none) :
    build_queries_by_main_group gts gl main =
      .error (.invalidMainGroupError
        (str "Main group '" ++ main ++ str "' not found in group terms.")) ∧
    ∃ a b : Str,
      str "Main group '" ++ main ++ str "' not found in group terms." =
        a ++ main ++ b :=
  ⟨by simp only [build_queries_by_main_group, h],
   ⟨str "Main group '", str "' not found in group terms.", rfl⟩⟩

/-- Witness for C8 at a concrete input: main group `m` absent from a
one-group mapping. -/
theorem C8_witness :
    build_queries_by_main_group [(str "a", [str "x"])] [] (str "m") =
      .error (.invalidMainGroupError
        (str "Main group '" ++ str "m" ++ str "' not found in group terms.")) ∧
    ∃ a b : Str,
      str "Main group '" ++ str "m" ++ str "' not found in group terms." =
        a ++ str "m" ++ b :=
  C8_invalid_main_group [(str "a", [str "x"])] [] (str "m") rfl

/-- Claim C10: with the main group present but empty,
`build_queries_by_main_group` returns the empty list for every logic
mapping whatsoever — no logic entry is ever read. -/
theorem C10_empty_main_reads_no_logic
    (gts : List (Str × List Str)) (main : Str)
    (h : lookupG gts main = some ([] : List Str)) :
    ∀ gl : List (Str × GroupLogic),
      build_queries_by_main_group gts gl main = .ok [] :=
  fun gl => bqbmg_empty_main gts gl main h

/-- Witness for C10 at a concrete input: empty main group `m`, with a
logic mapping that has no entry for `m` at all. -/
theorem C10_witness :
    build_queries_by_main_group [(str "m", ([] : List Str)), (str "a", [str "x"])]
        [(str "zzz", ⟨true, str "NOT", none⟩)] (str "m") = .ok [] :=
  C10_empty_main_reads_no_logic [(str "m", ([] : List Str)), (str "a", [str "x"])]
    (str "m") rfl [(str "zzz", ⟨true, str "NOT", none⟩)]

end SQG
